import Mathlib

/-!
Shallow embedding of `src/Week_PA2_sol.py`, a menu-driven console client
performing CRUD operations on Redis sets.

Modelling choices:
* Console input is a `List String` of lines; each operation consumes a prefix
  of it and returns the remaining lines.  Running out of input lines yields
  `none` (in Python, `input()` would block/raise; all claims are settled under
  the hypothesis that the run completed, i.e. produced `some`).
* The Redis store is a total function `String → Finset String`: the set stored
  at each key.  Redis set keys exist exactly when the set is non-empty, which
  the model reflects (`EXISTS k` is `s k ≠ ∅`, `DEL`/`SREM`-to-empty erase the
  key).
* Each Redis command issued by the program is recorded in a `StoreCall` trace,
  and each user-visible report in a `Report` trace (message text is abstracted
  to constructors carrying the data that was printed).
* `str.strip()` is modelled by `pyStrip` (drop ASCII whitespace at both ends),
  `str.lower()` by `pyLower`, and `int(...)` by `str_to_int` (optional sign
  followed by decimal digits).
-/

/-- ASCII whitespace, as stripped by Python `str.strip()`. -/
def isSpaceChar (c : Char) : Bool :=
  c = ' ' || c = '\t' || c = '\n' || c = '\x0d' || c = '\x0b' || c = '\x0c'

/-- Drop leading and trailing whitespace from a list of characters. -/
def stripChars (cs : List Char) : List Char :=
  List.dropWhile isSpaceChar ((List.dropWhile isSpaceChar cs.reverse).reverse)

/-- Model of Python `str.strip()`. -/
def pyStrip (s : String) : String :=
  String.mk (stripChars s.data)

/-- Model of Python `str.lower()` (ASCII). -/
def pyLower (s : String) : String :=
  String.mk (s.data.map Char.toLower)

/-- Numeric value of a decimal digit character, if it is one. -/
def charDigit (c : Char) : Option Nat :=
  if '0' ≤ c ∧ c ≤ '9' then some (c.toNat - '0'.toNat) else none

/-- Accumulate the value of a run of decimal digits; fails on a non-digit. -/
def digitsVal : List Char → Nat → Option Nat
  | [], acc => some acc
  | c :: cs, acc =>
    match charDigit c with
    | some d => digitsVal cs (acc * 10 + d)
    | none => none

/-- Model of Python `int(s)` on a stripped string: optional sign, then at
least one decimal digit. -/
def str_to_int (s : String) : Option Int :=
  match s.data with
  | [] => none
  | '+' :: cs => if cs = [] then none else (digitsVal cs 0).map Int.ofNat
  | '-' :: cs => if cs = [] then none else (digitsVal cs 0).map (fun n => -(n : Int))
  | cs => (digitsVal cs 0).map Int.ofNat

/-- The `value < min_value` rejection test of `get_int`. -/
def belowMin (min_value : Option Int) (v : Int) : Bool :=
  match min_value with
  | some m => decide (v < m)
  | none => false

/-- The `value > max_value` rejection test of `get_int`. -/
def aboveMax (max_value : Option Int) (v : Int) : Bool :=
  match max_value with
  | some m => decide (m < v)
  | none => false

/-- Does `get_int` reject this input line (parse failure or out of range)? -/
def rejects (min_value max_value : Option Int) (line : String) : Bool :=
  match str_to_int (pyStrip line) with
  | none => true
  | some v => belowMin min_value v || aboveMax max_value v

/-- Embedding of `get_int`: repeatedly read a line, strip it, try to parse an
integer, re-prompt (consume the next line) on parse failure or bound
violation.  Returns the accepted value and the unconsumed input, or `none` if
input runs out while still re-prompting. -/
def get_int (min_value max_value : Option Int) : List String → Option (Int × List String)
  | [] => none
  | line :: rest =>
    match str_to_int (pyStrip line) with
    | none => get_int min_value max_value rest
    | some value =>
      if belowMin min_value value then get_int min_value max_value rest
      else if aboveMax max_value value then get_int min_value max_value rest
      else some (value, rest)

/-- The store: for each key, the Redis set stored there (`∅` = key absent). -/
def RStore : Type := String → Finset String

/-- One Redis command issued by the program. -/
inductive StoreCall : Type
  | existsKey (key : String)
  | sadd (key : String) (members : List String)
  | srem (key : String) (member : String)
  | smembers (key : String)
  | scard (key : String)
  | delKey (key : String)
  | flushdb
deriving DecidableEq, Repr

/-- One user-visible report printed by the program (text abstracted). -/
inductive Report : Type
  | keyEmpty
  | keyMissing (key : String)
  | memberEmpty
  | addedCount (key : String) (n : Nat)
  | cardinalityIs (key : String) (n : Nat)
  | membersOf (key : String) (ms : Finset String)
  | noMembers
  | addedNew (key member : String)
  | alreadyExisted (key member : String)
  | removedOk (key member : String)
  | notFoundMember (key member : String)
  | removingAll
  | nothingToRemove
  | removing (member : String)
  | exitUpdate
  | deletedOk (key : String)
  | keyNotFound (key : String)
  | flushed
  | cancelled
  | exited
deriving DecidableEq

/-- `SADD key m₁ … mₙ`: union the batch into the set; the return value is the
number of members newly added (duplicates in the batch and members already
present are not counted). -/
def saddStore (s : RStore) (key : String) (ms : List String) : RStore :=
  fun k => if k = key then s key ∪ ms.toFinset else s k

/-- Return value of `SADD`: how many of the batch were newly added. -/
def saddCount (s : RStore) (key : String) (ms : List String) : Nat :=
  (ms.toFinset \ s key).card

/-- `SREM key m`: remove one member. -/
def sremStore (s : RStore) (key : String) (m : String) : RStore :=
  fun k => if k = key then (s key).erase m else s k

/-- Return value of `SREM`: 1 if the member was present, else 0. -/
def sremCount (s : RStore) (key : String) (m : String) : Nat :=
  if m ∈ s key then 1 else 0

/-- `SCARD key`. -/
def scard (s : RStore) (key : String) : Nat :=
  (s key).card

/-- `EXISTS key` (a Redis set key exists iff it has a member). -/
def keyExists (s : RStore) (key : String) : Bool :=
  decide (s key ≠ ∅)

/-- `DEL key`: the store afterwards. -/
def delStore (s : RStore) (key : String) : RStore :=
  fun k => if k = key then ∅ else s k

/-- `FLUSHDB`: every key removed. -/
def flushStore : RStore :=
  fun _ => ∅

/-- Result of one menu operation: new store, trace of Redis calls, trace of
reports, remaining input lines. -/
def OpResult : Type := RStore × List StoreCall × List Report × List String

/-- The member-collection loop of `create_new_set`: read `n` lines, stripping
each; an empty member aborts (inner `some none`); running out of lines is
`none`. -/
def readMembers : Nat → List String → Option (Option (List String) × List String)
  | 0, rest => some (some [], rest)
  | _ + 1, [] => none
  | n + 1, line :: rest =>
    let member := pyStrip line
    if member = "" then some (none, rest)
    else
      match readMembers n rest with
      | none => none
      | some (none, r) => some (none, r)
      | some (some ms, r) => some (some (member :: ms), r)

/-- Embedding of `create_new_set`: read a key (abort if empty after strip),
read a member count `≥ 1` via `get_int`, read that many members (abort all if
any is empty), then issue one `SADD` with the whole batch and report the
newly-added count and the new cardinality. -/
def create_new_set (s : RStore) : List String → Option OpResult
  | [] => none
  | keyLine :: rest =>
    let key := pyStrip keyLine
    if key = "" then some (s, [], [Report.keyEmpty], rest)
    else
      match get_int (some 1) none rest with
      | none => none
      | some (count, rest1) =>
        match readMembers count.toNat rest1 with
        | none => none
        | some (none, rest2) => some (s, [], [Report.memberEmpty], rest2)
        | some (some members, rest2) =>
          let s1 := saddStore s key members
          some (s1,
                [StoreCall.sadd key members, StoreCall.scard key],
                [Report.addedCount key (saddCount s key members),
                 Report.cardinalityIs key (scard s1 key)],
                rest2)

/-- Embedding of `retrieve_set_members`: read a key (abort if empty), check
existence, then fetch and report the member set and the cardinality. -/
def retrieve_set_members (s : RStore) : List String → Option OpResult
  | [] => none
  | keyLine :: rest =>
    let key := pyStrip keyLine
    if key = "" then some (s, [], [Report.keyEmpty], rest)
    else if keyExists s key = false then
      some (s, [StoreCall.existsKey key], [Report.keyMissing key], rest)
    else
      let ms := s key
      some (s,
            [StoreCall.existsKey key, StoreCall.smembers key, StoreCall.scard key],
            [(if ms.card = 0 then Report.noMembers else Report.membersOf key ms),
             Report.cardinalityIs key (scard s key)],
            rest)

/-- The per-member removal loop of the "remove all members" choice: one `SREM`
per member of the snapshot. -/
def removeAll (s : RStore) (key : String) : List String → RStore
  | [] => s
  | m :: ms => removeAll (sremStore s key m) key ms

/-- A concrete enumeration of a member set, standing for the (unspecified)
iteration order Redis returns from `SMEMBERS`. -/
def setSnapshot (ms : Finset String) : List String :=
  ms.sort (fun a b => a ≤ b)

/-- One iteration of the update sub-menu: read a choice 1–4 via `get_int`,
execute it.  Returns the new store, the calls and reports of this iteration,
the remaining input, and whether choice 4 (exit) was taken. -/
def update_step (s : RStore) (key : String) (inputs : List String) :
    Option (RStore × List StoreCall × List Report × List String × Bool) :=
  match get_int (some 1) (some 4) inputs with
  | none => none
  | some (choice, rest) =>
    if choice = 1 then
      match rest with
      | [] => none
      | line :: rest1 =>
        let member := pyStrip line
        if member = "" then some (s, [], [Report.memberEmpty], rest1, false)
        else
          let added := saddCount s key [member]
          let s1 := saddStore s key [member]
          some (s1,
                [StoreCall.sadd key [member], StoreCall.scard key],
                [(if added = 1 then Report.addedNew key member
                  else Report.alreadyExisted key member),
                 Report.cardinalityIs key (scard s1 key)],
                rest1, false)
    else if choice = 2 then
      match rest with
      | [] => none
      | line :: rest1 =>
        let member := pyStrip line
        if member = "" then some (s, [], [Report.memberEmpty], rest1, false)
        else
          let removed := sremCount s key member
          let s1 := sremStore s key member
          some (s1,
                [StoreCall.srem key member, StoreCall.scard key],
                [(if removed = 1 then Report.removedOk key member
                  else Report.notFoundMember key member),
                 Report.cardinalityIs key (scard s1 key)],
                rest1, false)
    else if choice = 3 then
      let ms := s key
      if ms = ∅ then
        some (s, [StoreCall.smembers key, StoreCall.scard key],
              [Report.removingAll, Report.nothingToRemove,
               Report.cardinalityIs key (scard s key)],
              rest, false)
      else
        let snap := setSnapshot ms
        let s1 := removeAll s key snap
        some (s1,
              StoreCall.smembers key ::
                (snap.map (fun m => StoreCall.srem key m) ++ [StoreCall.scard key]),
              Report.removingAll ::
                (snap.map (fun m => Report.removing m) ++
                 [Report.cardinalityIs key (scard s1 key)]),
              rest, false)
    else
      some (s, [], [Report.exitUpdate], rest, true)

/-- The update sub-menu loop, fueled: iterate `update_step` until choice 4. -/
def update_loop : Nat → RStore → String → List String →
    Option (RStore × List StoreCall × List Report × List String)
  | 0, _, _, _ => none
  | fuel + 1, s, key, inputs =>
    match update_step s key inputs with
    | none => none
    | some (s1, calls, reps, rest, true) => some (s1, calls, reps, rest)
    | some (s1, calls, reps, rest, false) =>
      match update_loop fuel s1 key rest with
      | none => none
      | some (s2, calls2, reps2, rest2) =>
        some (s2, calls ++ calls2, reps ++ reps2, rest2)

/-- Embedding of `update_set_members`: read a key (abort if empty), check
existence (abort if missing), then run the sub-menu loop. -/
def update_set_members (s : RStore) : List String → Option OpResult
  | [] => none
  | keyLine :: rest =>
    let key := pyStrip keyLine
    if key = "" then some (s, [], [Report.keyEmpty], rest)
    else if keyExists s key = false then
      some (s, [StoreCall.existsKey key], [Report.keyMissing key], rest)
    else
      match update_loop (rest.length + 1) s key rest with
      | none => none
      | some (s1, calls, reps, rest1) =>
        some (s1, StoreCall.existsKey key :: calls, reps, rest1)

/-- Embedding of `delete_set`: read a key (abort if empty), then issue `DEL`
directly and report based on its return value. -/
def delete_set (s : RStore) : List String → Option OpResult
  | [] => none
  | keyLine :: rest =>
    let key := pyStrip keyLine
    if key = "" then some (s, [], [Report.keyEmpty], rest)
    else
      some (delStore s key,
            [StoreCall.delKey key],
            [(if keyExists s key then Report.deletedOk key else Report.keyNotFound key)],
            rest)

/-- Embedding of `delete_all_data`: read a confirmation, strip and lowercase
it; on `"y"` issue `FLUSHDB`, otherwise do nothing. -/
def delete_all_data (s : RStore) : List String → Option OpResult
  | [] => none
  | line :: rest =>
    let confirm := pyLower (pyStrip line)
    if confirm = "y" then
      some (flushStore, [StoreCall.flushdb], [Report.flushed], rest)
    else
      some (s, [], [Report.cancelled], rest)

/-- The top-level menu loop of `main`, fueled by a bound on the number of
iterations: read a selection 1–6 via `get_int` and dispatch. -/
def main_loop : Nat → RStore → List String → Option (RStore × List StoreCall × List Report)
  | 0, _, _ => none
  | fuel + 1, s, inputs =>
    match get_int (some 1) (some 6) inputs with
    | none => none
    | some (sel, rest) =>
      if sel = 6 then some (s, [], [Report.exited])
      else
        let opRes :=
          if sel = 1 then retrieve_set_members s rest
          else if sel = 2 then create_new_set s rest
          else if sel = 3 then update_set_members s rest
          else if sel = 4 then delete_set s rest
          else delete_all_data s rest
        match opRes with
        | none => none
        | some (s1, calls, reps, rest1) =>
          match main_loop fuel s1 rest1 with
          | none => none
          | some (s2, calls2, reps2) => some (s2, calls ++ calls2, reps ++ reps2)

/-- Store wellformedness: no set in the store contains the empty string (the
program never adds one). -/
def WF (s : RStore) : Prop :=
  ∀ k, "" ∉ s k

/-- A store call carries no empty key and no empty member string. -/
def callOkB : StoreCall → Bool
  | StoreCall.existsKey k => k != ""
  | StoreCall.sadd k ms => k != "" && ms.all (fun m => m != "")
  | StoreCall.srem k m => k != "" && m != ""
  | StoreCall.smembers k => k != ""
  | StoreCall.scard k => k != ""
  | StoreCall.delKey k => k != ""
  | StoreCall.flushdb => true

/-- Does this call act on exactly the given key? -/
def actsOn (key : String) : StoreCall → Bool
  | StoreCall.existsKey k => k == key
  | StoreCall.sadd k _ => k == key
  | StoreCall.srem k _ => k == key
  | StoreCall.smembers k => k == key
  | StoreCall.scard k => k == key
  | StoreCall.delKey k => k == key
  | StoreCall.flushdb => false

/-- Every call that acts on a key is preceded (in trace order) by an
`EXISTS` check of that key; `checked` accumulates the keys checked so far. -/
def guardedFrom : List String → List StoreCall → Bool
  | _, [] => true
  | checked, StoreCall.existsKey k :: rest => guardedFrom (k :: checked) rest
  | checked, StoreCall.flushdb :: rest => guardedFrom checked rest
  | checked, StoreCall.sadd k _ :: rest => checked.contains k && guardedFrom checked rest
  | checked, StoreCall.srem k _ :: rest => checked.contains k && guardedFrom checked rest
  | checked, StoreCall.smembers k :: rest => checked.contains k && guardedFrom checked rest
  | checked, StoreCall.scard k :: rest => checked.contains k && guardedFrom checked rest
  | checked, StoreCall.delKey k :: rest => checked.contains k && guardedFrom checked rest

/-- A call trace in which no key is acted on before an `EXISTS` check of it. -/
def guarded (calls : List StoreCall) : Bool :=
  guardedFrom [] calls

/-! ### Facts about stripping -/

lemma dropWhile_head?_false (p : Char → Bool) :
    ∀ (l : List Char) (a : Char), (l.dropWhile p).head? = some a → p a = false := by
  intro l
  induction l with
  | nil => intro a h; simp at h
  | cons b t ih =>
    intro a h
    rw [List.dropWhile_cons] at h
    by_cases hb : p b
    · rw [if_pos hb] at h
      exact ih a h
    · rw [if_neg hb] at h
      simp only [List.head?_cons, Option.some.injEq] at h
      subst h
      exact Bool.eq_false_iff.mpr hb

lemma dropWhile_dropWhile (p : Char → Bool) (l : List Char) :
    (l.dropWhile p).dropWhile p = l.dropWhile p := by
  cases h : l.dropWhile p with
  | nil => rfl
  | cons a t =>
    have ha : p a = false := dropWhile_head?_false p l a (by rw [h]; rfl)
    rw [List.dropWhile_cons, ha]
    simp

lemma stripChars_idem (cs : List Char) : stripChars (stripChars cs) = stripChars cs := by
  set A := stripChars cs with hA
  have hrev : List.dropWhile isSpaceChar A.reverse = A.reverse := by
    cases hr : A.reverse with
    | nil => rfl
    | cons b r =>
      obtain ⟨u, hu⟩ := List.dropWhile_suffix
        (l := (cs.reverse.dropWhile isSpaceChar).reverse) isSpaceChar
      have hXrev : (cs.reverse.dropWhile isSpaceChar).reverse.reverse = A.reverse ++ u.reverse := by
        rw [← hu]
        simp [hA, stripChars]
      have hhead : (cs.reverse.dropWhile isSpaceChar).head? = some b := by
        rw [← List.reverse_reverse (cs.reverse.dropWhile isSpaceChar), hXrev, hr,
            List.head?_append_of_ne_nil _ (by simp)]
        rfl
      have hb : isSpaceChar b = false := dropWhile_head?_false isSpaceChar cs.reverse b hhead
      rw [List.dropWhile_cons, hb]
      simp
  conv_lhs => rw [stripChars]
  rw [hrev, List.reverse_reverse, hA, stripChars, dropWhile_dropWhile]

lemma pyStrip_idem (s : String) : pyStrip (pyStrip s) = pyStrip s := by
  unfold pyStrip
  rw [show (String.mk (stripChars s.data)).data = stripChars s.data from rfl,
      stripChars_idem]

lemma stripChars_of_all_space (cs : List Char) (h : ∀ c ∈ cs, isSpaceChar c = true) :
    stripChars cs = [] := by
  unfold stripChars
  have h1 : cs.reverse.dropWhile isSpaceChar = [] :=
    List.dropWhile_eq_nil_iff.mpr (fun c hc => h c (List.mem_reverse.mp hc))
  rw [h1]
  rfl

lemma pyStrip_of_all_space (s : String) (h : ∀ c ∈ s.data, isSpaceChar c = true) :
    pyStrip s = "" := by
  unfold pyStrip
  rw [stripChars_of_all_space s.data h]

/-! ### Facts about `get_int` -/

lemma get_int_bounds (min_value max_value : Option Int) :
    ∀ (inputs : List String) (v : Int) (rest : List String),
      get_int min_value max_value inputs = some (v, rest) →
      belowMin min_value v = false ∧ aboveMax max_value v = false := by
  intro inputs
  induction inputs with
  | nil => intro v rest h; simp [get_int] at h
  | cons line t ih =>
    intro v rest h
    cases hp : str_to_int (pyStrip line) with
    | none =>
      simp only [get_int, hp] at h
      exact ih v rest h
    | some value =>
      simp only [get_int, hp] at h
      by_cases hmin : belowMin min_value value
      · rw [if_pos hmin] at h; exact ih v rest h
      · rw [if_neg hmin] at h
        by_cases hmax : aboveMax max_value value
        · rw [if_pos hmax] at h; exact ih v rest h
        · rw [if_neg hmax] at h
          cases h
          exact ⟨Bool.eq_false_iff.mpr hmin, Bool.eq_false_iff.mpr hmax⟩

lemma get_int_skip (min_value max_value : Option Int) (line : String) (rest : List String)
    (h : rejects min_value max_value line = true) :
    get_int min_value max_value (line :: rest) = get_int min_value max_value rest := by
  unfold rejects at h
  cases hp : str_to_int (pyStrip line) with
  | none => simp only [get_int, hp]
  | some value =>
    rw [hp] at h
    simp only [get_int, hp]
    rcases Bool.or_eq_true_iff.mp h with h1 | h1
    · rw [if_pos h1]
    · by_cases hmin : belowMin min_value value
      · rw [if_pos hmin]
      · rw [if_neg hmin, if_pos h1]

lemma get_int_accept (min_value max_value : Option Int) (line : String) (rest : List String)
    (v : Int) (hp : str_to_int (pyStrip line) = some v)
    (hmin : belowMin min_value v = false) (hmax : aboveMax max_value v = false) :
    get_int min_value max_value (line :: rest) = some (v, rest) := by
  simp only [get_int, hp, hmin, hmax]
  simp

/-! ### Facts about `readMembers` -/

lemma readMembers_complete :
    ∀ ms : List String, (∀ m ∈ ms, pyStrip m ≠ "") →
      readMembers ms.length ms = some (some (ms.map pyStrip), []) := by
  intro ms
  induction ms with
  | nil => intro _; rfl
  | cons line t ih =>
    intro h
    have hline : pyStrip line ≠ "" := h line (List.mem_cons_self line t)
    simp only [List.length_cons, readMembers, if_neg hline,
      ih (fun m hm => h m (List.mem_cons_of_mem line hm))]
    rfl

lemma readMembers_abort :
    ∀ (pre : List String) (n : Nat) (bad : String) (post : List String),
      (∀ m ∈ pre, pyStrip m ≠ "") → pyStrip bad = "" → pre.length < n →
      readMembers n (pre ++ bad :: post) = some (none, post) := by
  intro pre
  induction pre with
  | nil =>
    intro n bad post _ hbad hn
    match n, hn with
    | k + 1, _ =>
      simp only [List.nil_append, readMembers, if_pos hbad]
  | cons line t ih =>
    intro n bad post hpre hbad hn
    match n, hn with
    | k + 1, hn =>
      have hline : pyStrip line ≠ "" := hpre line (List.mem_cons_self line t)
      have ht : t.length < k := by
        simpa [Nat.succ_lt_succ_iff] using hn
      simp only [List.cons_append, readMembers, if_neg hline, List.append_eq,
        ih k bad post (fun m hm => hpre m (List.mem_cons_of_mem line hm)) hbad ht]

lemma readMembers_members_ok :
    ∀ (n : Nat) (ls : List String) (ms : List String) (r : List String),
      readMembers n ls = some (some ms, r) → ∀ m ∈ ms, m ≠ "" ∧ pyStrip m = m := by
  intro n
  induction n with
  | zero =>
    intro ls ms r h m hm
    simp only [readMembers] at h
    cases h
    simp at hm
  | succ k ih =>
    intro ls ms r h m hm
    cases ls with
    | nil => simp [readMembers] at h
    | cons line t =>
      simp only [readMembers] at h
      by_cases hline : pyStrip line = ""
      · rw [if_pos hline] at h
        cases h
      · rw [if_neg hline] at h
        cases hrec : readMembers k t with
        | none => rw [hrec] at h; cases h
        | some p =>
          obtain ⟨op, r2⟩ := p
          rw [hrec] at h
          cases op with
          | none => cases h
          | some ms2 =>
            cases h
            rcases List.mem_cons.mp hm with hm1 | hm1
            · subst hm1
              exact ⟨hline, pyStrip_idem line⟩
            · exact ih t ms2 _ hrec m hm1

/-! ### Facts about `removeAll` -/

lemma removeAll_apply_key (key : String) :
    ∀ (l : List String) (s : RStore), removeAll s key l key = s key \ l.toFinset := by
  intro l
  induction l with
  | nil => intro s; simp [removeAll]
  | cons m ms ih =>
    intro s
    rw [removeAll, ih]
    have hs : sremStore s key m key = (s key).erase m := by
      simp [sremStore]
    rw [hs]
    ext a
    simp only [Finset.mem_sdiff, Finset.mem_erase, List.toFinset_cons, Finset.mem_insert,
      List.mem_toFinset]
    tauto

lemma removeAll_apply_ne (key k : String) (hk : k ≠ key) :
    ∀ (l : List String) (s : RStore), removeAll s key l k = s k := by
  intro l
  induction l with
  | nil => intro s; simp [removeAll]
  | cons m ms ih =>
    intro s
    rw [removeAll, ih]
    simp [sremStore, hk]

lemma removeAll_snapshot_empty (s : RStore) (key : String) :
    removeAll s key (setSnapshot (s key)) key = ∅ := by
  rw [removeAll_apply_key, setSnapshot, Finset.sort_toFinset, Finset.sdiff_self]

/-! ### Characterization of a completed `create_new_set` run -/

lemma create_new_set_complete (s : RStore) (key countLine : String) (ls : List String)
    (hkey : pyStrip key = key) (hk : key ≠ "")
    (hcount : str_to_int (pyStrip countLine) = some (ls.length : Int))
    (hlen : 1 ≤ ls.length)
    (hms : ∀ m ∈ ls, pyStrip m ≠ "") :
    create_new_set s (key :: countLine :: ls) =
      some (saddStore s key (ls.map pyStrip),
            [StoreCall.sadd key (ls.map pyStrip), StoreCall.scard key],
            [Report.addedCount key (saddCount s key (ls.map pyStrip)),
             Report.cardinalityIs key (scard (saddStore s key (ls.map pyStrip)) key)],
            []) := by
  have hbelow : belowMin (some 1) ((ls.length : Nat) : Int) = false := by
    have hnot : ¬(((ls.length : Nat) : Int) < 1) := by omega
    simp [belowMin, hnot]
  have hget : get_int (some 1) none (countLine :: ls) = some ((ls.length : Int), ls) :=
    get_int_accept _ _ _ _ _ hcount hbelow rfl
  have htn : ((ls.length : Nat) : Int).toNat = ls.length := rfl
  simp only [create_new_set, hkey, if_neg hk, hget, htn, readMembers_complete ls hms]

lemma create_new_set_aborts (s : RStore) (key countLine : String) (n : Nat)
    (pre : List String) (bad : String) (post : List String)
    (hkey : pyStrip key = key) (hk : key ≠ "")
    (hcount : str_to_int (pyStrip countLine) = some (n : Int))
    (hlen : 1 ≤ n)
    (hpre : ∀ m ∈ pre, pyStrip m ≠ "") (hbad : pyStrip bad = "")
    (hpren : pre.length < n) :
    create_new_set s (key :: countLine :: (pre ++ bad :: post)) =
      some (s, [], [Report.memberEmpty], post) := by
  have hbelow : belowMin (some 1) ((n : Nat) : Int) = false := by
    have hnot : ¬(((n : Nat) : Int) < 1) := by omega
    simp [belowMin, hnot]
  have hget : get_int (some 1) none (countLine :: (pre ++ bad :: post)) =
      some ((n : Int), pre ++ bad :: post) :=
    get_int_accept _ _ _ _ _ hcount hbelow rfl
  have htn : ((n : Nat) : Int).toNat = n := rfl
  simp only [create_new_set, hkey, if_neg hk, hget, htn,
    readMembers_abort pre n bad post hpre hbad hpren]

/-! ### Characterizations of one update sub-menu iteration -/

lemma update_step_add (s : RStore) (key c line : String) (rest : List String)
    (hc : str_to_int (pyStrip c) = some 1) (hm : pyStrip line ≠ "") :
    update_step s key (c :: line :: rest) =
      some (saddStore s key [pyStrip line],
            [StoreCall.sadd key [pyStrip line], StoreCall.scard key],
            [(if saddCount s key [pyStrip line] = 1
              then Report.addedNew key (pyStrip line)
              else Report.alreadyExisted key (pyStrip line)),
             Report.cardinalityIs key (scard (saddStore s key [pyStrip line]) key)],
            rest, false) := by
  have hget : get_int (some 1) (some 4) (c :: line :: rest) = some (1, line :: rest) :=
    get_int_accept _ _ _ _ _ hc rfl rfl
  simp [update_step, hget, hm]

lemma update_step_remove (s : RStore) (key c line : String) (rest : List String)
    (hc : str_to_int (pyStrip c) = some 2) (hm : pyStrip line ≠ "") :
    update_step s key (c :: line :: rest) =
      some (sremStore s key (pyStrip line),
            [StoreCall.srem key (pyStrip line), StoreCall.scard key],
            [(if sremCount s key (pyStrip line) = 1
              then Report.removedOk key (pyStrip line)
              else Report.notFoundMember key (pyStrip line)),
             Report.cardinalityIs key (scard (sremStore s key (pyStrip line)) key)],
            rest, false) := by
  have hget : get_int (some 1) (some 4) (c :: line :: rest) = some (2, line :: rest) :=
    get_int_accept _ _ _ _ _ hc rfl rfl
  simp [update_step, hget, hm]

lemma update_step_empty_member (s : RStore) (key c line : String) (rest : List String)
    (hc : str_to_int (pyStrip c) = some 1 ∨ str_to_int (pyStrip c) = some 2)
    (hm : pyStrip line = "") :
    update_step s key (c :: line :: rest) =
      some (s, [], [Report.memberEmpty], rest, false) := by
  rcases hc with hc | hc
  · have hget : get_int (some 1) (some 4) (c :: line :: rest) = some (1, line :: rest) :=
      get_int_accept _ _ _ _ _ hc rfl rfl
    simp [update_step, hget, hm]
  · have hget : get_int (some 1) (some 4) (c :: line :: rest) = some (2, line :: rest) :=
      get_int_accept _ _ _ _ _ hc rfl rfl
    simp [update_step, hget, hm]

lemma update_step_remove_all (s : RStore) (key c : String) (rest : List String)
    (hc : str_to_int (pyStrip c) = some 3) (hne : s key ≠ ∅) :
    update_step s key (c :: rest) =
      some (removeAll s key (setSnapshot (s key)),
            StoreCall.smembers key ::
              ((setSnapshot (s key)).map (fun m => StoreCall.srem key m) ++
               [StoreCall.scard key]),
            Report.removingAll ::
              ((setSnapshot (s key)).map (fun m => Report.removing m) ++
               [Report.cardinalityIs key
                  (scard (removeAll s key (setSnapshot (s key))) key)]),
            rest, false) := by
  have hget : get_int (some 1) (some 4) (c :: rest) = some (3, rest) :=
    get_int_accept _ _ _ _ _ hc rfl rfl
  simp [update_step, hget, hne]

lemma update_step_exit (s : RStore) (key c : String) (rest : List String)
    (hc : str_to_int (pyStrip c) = some 4) :
    update_step s key (c :: rest) = some (s, [], [Report.exitUpdate], rest, true) := by
  have hget : get_int (some 1) (some 4) (c :: rest) = some (4, rest) :=
    get_int_accept _ _ _ _ _ hc rfl rfl
  simp [update_step, hget]

lemma update_loop_continue (fuel : Nat) (s s1 : RStore) (key : String)
    (inputs : List String) (calls : List StoreCall) (reps : List Report)
    (rest : List String)
    (h : update_step s key inputs = some (s1, calls, reps, rest, false)) :
    update_loop (fuel + 1) s key inputs =
      (update_loop fuel s1 key rest).map
        (fun r => (r.1, calls ++ r.2.1, reps ++ r.2.2.1, r.2.2.2)) := by
  simp only [update_loop, h]
  cases hrec : update_loop fuel s1 key rest with
  | none => rfl
  | some q =>
    obtain ⟨s2, calls2, reps2, rest2⟩ := q
    rfl

/-! ### Invariants of the update sub-menu -/

lemma WF_saddStore (s : RStore) (key : String) (ms : List String)
    (hwf : WF s) (hms : ∀ m ∈ ms, m ≠ "") : WF (saddStore s key ms) := by
  intro k
  unfold saddStore
  by_cases hkk : k = key
  · rw [if_pos hkk]
    intro hmem
    rcases Finset.mem_union.mp hmem with h1 | h1
    · exact hwf key h1
    · exact hms "" (List.mem_toFinset.mp h1) rfl
  · rw [if_neg hkk]
    exact hwf k

lemma WF_sremStore (s : RStore) (key m : String) (hwf : WF s) :
    WF (sremStore s key m) := by
  intro k
  unfold sremStore
  by_cases hkk : k = key
  · rw [if_pos hkk]
    intro hmem
    exact hwf key (Finset.mem_of_mem_erase hmem)
  · rw [if_neg hkk]
    exact hwf k

lemma WF_removeAll (s : RStore) (key : String) (l : List String) (hwf : WF s) :
    WF (removeAll s key l) := by
  intro k
  by_cases hkk : k = key
  · subst hkk
    rw [removeAll_apply_key]
    intro hmem
    exact hwf k (Finset.mem_sdiff.mp hmem).1
  · rw [removeAll_apply_ne key k hkk]
    exact hwf k

lemma mem_setSnapshot {ms : Finset String} {m : String} :
    m ∈ setSnapshot ms ↔ m ∈ ms := by
  unfold setSnapshot
  exact Finset.mem_sort _

lemma update_step_inv (s : RStore) (key : String) (inputs : List String)
    (s1 : RStore) (calls : List StoreCall) (reps : List Report) (rest : List String)
    (ex : Bool) (hwf : WF s) (hk : key ≠ "")
    (h : update_step s key inputs = some (s1, calls, reps, rest, ex)) :
    WF s1 ∧ calls.all callOkB = true ∧ calls.all (actsOn key) = true := by
  unfold update_step at h
  cases hget : get_int (some 1) (some 4) inputs with
  | none => rw [hget] at h; simp at h
  | some p =>
    obtain ⟨choice, rest0⟩ := p
    rw [hget] at h
    simp only [] at h
    by_cases h1 : choice = 1
    · rw [if_pos h1] at h
      cases rest0 with
      | nil => simp at h
      | cons line rest1 =>
        simp only [] at h
        by_cases hm : pyStrip line = ""
        · rw [if_pos hm] at h
          cases h
          exact ⟨hwf, rfl, rfl⟩
        · rw [if_neg hm] at h
          cases h
          refine ⟨WF_saddStore s key [pyStrip line] hwf ?_, ?_, ?_⟩
          · intro m hmem
            rcases List.mem_singleton.mp hmem with rfl
            exact hm
          · simp [callOkB, hk, hm]
          · simp [actsOn]
    · rw [if_neg h1] at h
      by_cases h2 : choice = 2
      · rw [if_pos h2] at h
        cases rest0 with
        | nil => simp at h
        | cons line rest1 =>
          simp only [] at h
          by_cases hm : pyStrip line = ""
          · rw [if_pos hm] at h
            cases h
            exact ⟨hwf, rfl, rfl⟩
          · rw [if_neg hm] at h
            cases h
            refine ⟨WF_sremStore s key (pyStrip line) hwf, ?_, ?_⟩
            · simp [callOkB, hk, hm]
            · simp [actsOn]
      · rw [if_neg h2] at h
        by_cases h3 : choice = 3
        · rw [if_pos h3] at h
          by_cases hne : s key = ∅
          · rw [if_pos hne] at h
            cases h
            refine ⟨hwf, ?_, ?_⟩
            · simp [callOkB, hk]
            · simp [actsOn]
          · rw [if_neg hne] at h
            cases h
            refine ⟨WF_removeAll s key _ hwf, ?_, ?_⟩
            · simp only [List.all_cons, List.all_append, List.all_eq_true, Bool.and_eq_true]
              refine ⟨by simp [callOkB, hk], ⟨?_, by simp [callOkB, hk]⟩⟩
              intro c hc
              rcases List.mem_map.mp hc with ⟨m, hmem, rfl⟩
              have hmne : m ≠ "" := by
                intro heq
                subst heq
                exact hwf key (mem_setSnapshot.mp hmem)
              simp [callOkB, hk, hmne]
            · simp only [List.all_cons, List.all_append, List.all_eq_true, Bool.and_eq_true]
              refine ⟨by simp [actsOn], ⟨?_, by simp [actsOn]⟩⟩
              intro c hc
              rcases List.mem_map.mp hc with ⟨m, hmem, rfl⟩
              simp [actsOn]
        · rw [if_neg h3] at h
          cases h
          exact ⟨hwf, rfl, rfl⟩

lemma update_loop_inv (key : String) (hk : key ≠ "") :
    ∀ (fuel : Nat) (s : RStore) (inputs : List String) (s1 : RStore)
      (calls : List StoreCall) (reps : List Report) (rest : List String),
      WF s → update_loop fuel s key inputs = some (s1, calls, reps, rest) →
      WF s1 ∧ calls.all callOkB = true ∧ calls.all (actsOn key) = true := by
  intro fuel
  induction fuel with
  | zero =>
    intro s inputs s1 calls reps rest _ h
    simp [update_loop] at h
  | succ k ih =>
    intro s inputs s1 calls reps rest hwf h
    rw [update_loop] at h
    cases hstep : update_step s key inputs with
    | none => rw [hstep] at h; simp at h
    | some p =>
      obtain ⟨s', calls', reps', rest', ex⟩ := p
      rw [hstep] at h
      obtain ⟨hwf', hok', hact'⟩ :=
        update_step_inv s key inputs s' calls' reps' rest' ex hwf hk hstep
      cases ex with
      | true =>
        simp only [] at h
        cases h
        exact ⟨hwf', hok', hact'⟩
      | false =>
        simp only [] at h
        cases hrec : update_loop k s' key rest' with
        | none => rw [hrec] at h; simp at h
        | some q =>
          obtain ⟨s2, calls2, reps2, rest2⟩ := q
          rw [hrec] at h
          cases h
          obtain ⟨hwf2, hok2, hact2⟩ := ih s' rest' _ _ _ _ hwf' hrec
          refine ⟨hwf2, ?_, ?_⟩
          · rw [List.all_append, hok', hok2]
            rfl
          · rw [List.all_append, hact', hact2]
            rfl

lemma guardedFrom_of_actsOn :
    ∀ (l : List StoreCall) (checked : List String) (key : String),
      (∀ c ∈ l, actsOn key c = true) → checked.contains key = true →
      guardedFrom checked l = true := by
  intro l
  induction l with
  | nil => intro checked key _ _; rfl
  | cons c t ih =>
    intro checked key hall hc
    have htail : ∀ c ∈ t, actsOn key c = true :=
      fun c hc' => hall c (List.mem_cons_of_mem _ hc')
    have hhead := hall c (List.mem_cons_self c t)
    cases c with
    | existsKey k =>
      rw [guardedFrom]
      apply ih _ key htail
      rw [List.contains_cons]
      rw [hc]
      simp
    | flushdb => simp [actsOn] at hhead
    | sadd k ms =>
      have hkey : k = key := by simpa [actsOn] using hhead
      subst hkey
      rw [guardedFrom, hc, ih _ _ htail hc]
      rfl
    | srem k m =>
      have hkey : k = key := by simpa [actsOn] using hhead
      subst hkey
      rw [guardedFrom, hc, ih _ _ htail hc]
      rfl
    | smembers k =>
      have hkey : k = key := by simpa [actsOn] using hhead
      subst hkey
      rw [guardedFrom, hc, ih _ _ htail hc]
      rfl
    | scard k =>
      have hkey : k = key := by simpa [actsOn] using hhead
      subst hkey
      rw [guardedFrom, hc, ih _ _ htail hc]
      rfl
    | delKey k =>
      have hkey : k = key := by simpa [actsOn] using hhead
      subst hkey
      rw [guardedFrom, hc, ih _ _ htail hc]
      rfl

lemma guarded_existsKey_cons (key : String) (calls : List StoreCall)
    (hall : ∀ c ∈ calls, actsOn key c = true) :
    guarded (StoreCall.existsKey key :: calls) = true := by
  rw [guarded, guardedFrom]
  apply guardedFrom_of_actsOn calls [key] key hall
  simp [List.contains_cons]

/-! ### Per-operation invariants -/

lemma create_new_set_inv (s : RStore) (inputs : List String) (r : OpResult)
    (hwf : WF s) (h : create_new_set s inputs = some r) :
    WF r.1 ∧ r.2.1.all callOkB = true := by
  cases inputs with
  | nil => simp [create_new_set] at h
  | cons keyLine rest =>
    simp only [create_new_set] at h
    by_cases hk : pyStrip keyLine = ""
    · rw [if_pos hk] at h
      cases h
      exact ⟨hwf, rfl⟩
    · rw [if_neg hk] at h
      cases hget : get_int (some 1) none rest with
      | none => rw [hget] at h; simp at h
      | some p =>
        obtain ⟨count, rest1⟩ := p
        rw [hget] at h
        simp only [] at h
        cases hread : readMembers count.toNat rest1 with
        | none => rw [hread] at h; simp at h
        | some q =>
          obtain ⟨op, rest2⟩ := q
          rw [hread] at h
          cases op with
          | none =>
            cases h
            exact ⟨hwf, rfl⟩
          | some ms =>
            cases h
            have hmem := readMembers_members_ok _ _ _ _ hread
            constructor
            · exact WF_saddStore s (pyStrip keyLine) ms hwf
                (fun m hm => (hmem m hm).1)
            · simp only [List.all_cons, List.all_nil, Bool.and_eq_true, callOkB]
              refine ⟨⟨?_, ?_⟩, ?_, trivial⟩
              · simp [hk]
              · rw [List.all_eq_true]
                intro m hm
                simp [(hmem m hm).1]
              · simp [hk]

lemma retrieve_set_members_inv (s : RStore) (inputs : List String) (r : OpResult)
    (hwf : WF s) (h : retrieve_set_members s inputs = some r) :
    WF r.1 ∧ r.2.1.all callOkB = true ∧ guarded r.2.1 = true := by
  cases inputs with
  | nil => simp [retrieve_set_members] at h
  | cons keyLine rest =>
    simp only [retrieve_set_members] at h
    by_cases hk : pyStrip keyLine = ""
    · rw [if_pos hk] at h
      cases h
      exact ⟨hwf, rfl, rfl⟩
    · rw [if_neg hk] at h
      by_cases hex : keyExists s (pyStrip keyLine) = false
      · rw [if_pos hex] at h
        cases h
        refine ⟨hwf, ?_, rfl⟩
        simp [callOkB, hk]
      · rw [if_neg hex] at h
        cases h
        refine ⟨hwf, ?_, ?_⟩
        · simp [callOkB, hk]
        · apply guarded_existsKey_cons
          intro c hc
          rcases List.mem_cons.mp hc with rfl | hc1
          · simp [actsOn]
          · rcases List.mem_cons.mp hc1 with rfl | hc2
            · simp [actsOn]
            · simp at hc2

lemma update_set_members_inv (s : RStore) (inputs : List String) (r : OpResult)
    (hwf : WF s) (h : update_set_members s inputs = some r) :
    WF r.1 ∧ r.2.1.all callOkB = true ∧ guarded r.2.1 = true := by
  cases inputs with
  | nil => simp [update_set_members] at h
  | cons keyLine rest =>
    simp only [update_set_members] at h
    by_cases hk : pyStrip keyLine = ""
    · rw [if_pos hk] at h
      cases h
      exact ⟨hwf, rfl, rfl⟩
    · rw [if_neg hk] at h
      by_cases hex : keyExists s (pyStrip keyLine) = false
      · rw [if_pos hex] at h
        cases h
        refine ⟨hwf, ?_, rfl⟩
        simp [callOkB, hk]
      · rw [if_neg hex] at h
        cases hloop : update_loop (rest.length + 1) s (pyStrip keyLine) rest with
        | none => rw [hloop] at h; simp at h
        | some q =>
          obtain ⟨s1, calls1, reps1, rest1⟩ := q
          rw [hloop] at h
          cases h
          obtain ⟨hwf1, hok1, hact1⟩ :=
            update_loop_inv (pyStrip keyLine) hk (rest.length + 1) s rest
              s1 calls1 reps1 rest1 hwf hloop
          refine ⟨hwf1, ?_, ?_⟩
          · simp only [List.all_cons, Bool.and_eq_true]
            refine ⟨?_, hok1⟩
            simp [callOkB, hk]
          · apply guarded_existsKey_cons
            rw [List.all_eq_true] at hact1
            exact hact1

lemma delete_set_inv (s : RStore) (inputs : List String) (r : OpResult)
    (hwf : WF s) (h : delete_set s inputs = some r) :
    WF r.1 ∧ r.2.1.all callOkB = true := by
  cases inputs with
  | nil => simp [delete_set] at h
  | cons keyLine rest =>
    simp only [delete_set] at h
    by_cases hk : pyStrip keyLine = ""
    · rw [if_pos hk] at h
      cases h
      exact ⟨hwf, rfl⟩
    · rw [if_neg hk] at h
      cases h
      constructor
      · intro k
        show "" ∉ delStore s (pyStrip keyLine) k
        unfold delStore
        by_cases hkk : k = pyStrip keyLine
        · rw [if_pos hkk]
          simp
        · rw [if_neg hkk]
          exact hwf k
      · simp [callOkB, hk]

lemma delete_all_data_inv (s : RStore) (inputs : List String) (r : OpResult)
    (hwf : WF s) (h : delete_all_data s inputs = some r) :
    WF r.1 ∧ r.2.1.all callOkB = true := by
  cases inputs with
  | nil => simp [delete_all_data] at h
  | cons line rest =>
    simp only [delete_all_data] at h
    by_cases hy : pyLower (pyStrip line) = "y"
    · rw [if_pos hy] at h
      cases h
      refine ⟨?_, rfl⟩
      intro k
      simp [flushStore]
    · rw [if_neg hy] at h
      cases h
      exact ⟨hwf, rfl⟩

/-! ## Claim theorems -/

/-- C3: in the create-set flow, if any of the N requested member inputs is
empty, the whole operation aborts immediately: no add call is issued (the
call trace is `[]`), none of the previously collected members are added, and
the store state is unchanged. -/
theorem c3_create_aborts_on_empty_member (s : RStore) (key countLine : String)
    (n : Nat) (pre : List String) (bad : String) (post : List String)
    (hkey : pyStrip key = key) (hk : key ≠ "")
    (hcount : str_to_int (pyStrip countLine) = some (n : Int)) (hlen : 1 ≤ n)
    (hpre : ∀ m ∈ pre, pyStrip m ≠ "") (hbad : pyStrip bad = "")
    (hpren : pre.length < n) :
    create_new_set s (key :: countLine :: (pre ++ bad :: post)) =
      some (s, [], [Report.memberEmpty], post) :=
  create_new_set_aborts s key countLine n pre bad post hkey hk hcount hlen hpre hbad hpren

/-- C3 witness: aborting a 3-member create of key `colors` after collecting
`green` and hitting an empty member leaves the store untouched and issues no
call. -/
theorem c3_witness :
    create_new_set (fun k => if k = "colors" then ({"red"} : Finset String) else ∅)
        ["colors", "3", "green", "", "never"] =
      some ((fun k => if k = "colors" then ({"red"} : Finset String) else ∅),
            [], [Report.memberEmpty], ["never"]) :=
  c3_create_aborts_on_empty_member
    (fun k => if k = "colors" then ({"red"} : Finset String) else ∅)
    "colors" "3" 3 ["green"] "" ["never"]
    rfl (by decide) rfl (by decide) (by decide) rfl (by decide)

/-- C4: a completed create-set run issues exactly one batched `SADD` carrying
all N collected members (in input order, duplicates included), reports as
newly added the number of batch members not already present (duplicates inside
the batch and against the existing set collapse), and reports the resulting
cardinality of the union. -/
theorem c4_batched_add (s : RStore) (key countLine : String) (ls : List String)
    (hkey : pyStrip key = key) (hk : key ≠ "")
    (hcount : str_to_int (pyStrip countLine) = some (ls.length : Int))
    (hlen : 1 ≤ ls.length) (hms : ∀ m ∈ ls, pyStrip m ≠ "") :
    create_new_set s (key :: countLine :: ls) =
      some (saddStore s key (ls.map pyStrip),
            [StoreCall.sadd key (ls.map pyStrip), StoreCall.scard key],
            [Report.addedCount key ((ls.map pyStrip).toFinset \ s key).card,
             Report.cardinalityIs key (s key ∪ (ls.map pyStrip).toFinset).card],
            []) ∧
    (ls.map pyStrip).length = ls.length := by
  have h := create_new_set_complete s key countLine ls hkey hk hcount hlen hms
  have hcnt : saddCount s key (ls.map pyStrip) = ((ls.map pyStrip).toFinset \ s key).card := rfl
  have hcard : scard (saddStore s key (ls.map pyStrip)) key =
      (s key ∪ (ls.map pyStrip).toFinset).card := by
    simp [scard, saddStore]
  rw [hcnt, hcard] at h
  exact ⟨h, ls.length_map pyStrip⟩

/-- C4 witness: the spec's example — fresh key `colors`, inputs
`red`,`green`,`red` — yields one `SADD` with the three raw inputs, a reported
newly-added count of 2 and a cardinality of 2. -/
theorem c4_witness :
    (create_new_set flushStore ["colors", "3", "red", "green", "red"]).map
        (fun r => (r.2.1, r.2.2.1)) =
      some ([StoreCall.sadd "colors" ["red", "green", "red"], StoreCall.scard "colors"],
            [Report.addedCount "colors" 2, Report.cardinalityIs "colors" 2]) := by
  rw [(c4_batched_add flushStore "colors" "3" ["red", "green", "red"]
    rfl (by decide) rfl (by decide) (by decide)).1]
  decide

/-- C1 (amended): for a key that is absent from the store before the
create-set flow, the flow stores exactly the set of entered members, and a
subsequent query-members on that key (against the resulting store) returns
exactly that set and reports its cardinality. -/
theorem c1_create_then_query (s : RStore) (key countLine : String) (ls : List String)
    (hkey : pyStrip key = key) (hk : key ≠ "") (hfresh : s key = ∅)
    (hcount : str_to_int (pyStrip countLine) = some (ls.length : Int))
    (hlen : 1 ≤ ls.length) (hms : ∀ m ∈ ls, pyStrip m ≠ "") :
    create_new_set s (key :: countLine :: ls) =
      some (saddStore s key (ls.map pyStrip),
            [StoreCall.sadd key (ls.map pyStrip), StoreCall.scard key],
            [Report.addedCount key (ls.map pyStrip).toFinset.card,
             Report.cardinalityIs key (ls.map pyStrip).toFinset.card], []) ∧
    saddStore s key (ls.map pyStrip) key = (ls.map pyStrip).toFinset ∧
    retrieve_set_members (saddStore s key (ls.map pyStrip)) [key] =
      some (saddStore s key (ls.map pyStrip),
            [StoreCall.existsKey key, StoreCall.smembers key, StoreCall.scard key],
            [Report.membersOf key (ls.map pyStrip).toFinset,
             Report.cardinalityIs key (ls.map pyStrip).toFinset.card], []) := by
  have hs1 : saddStore s key (ls.map pyStrip) key = (ls.map pyStrip).toFinset := by
    simp [saddStore, hfresh]
  have hcnt : saddCount s key (ls.map pyStrip) = (ls.map pyStrip).toFinset.card := by
    simp [saddCount, hfresh]
  have hcard : scard (saddStore s key (ls.map pyStrip)) key =
      (ls.map pyStrip).toFinset.card := by
    simp [scard, hs1]
  have hnonempty : (ls.map pyStrip).toFinset ≠ ∅ := by
    cases ls with
    | nil => simp at hlen
    | cons a t =>
      intro heq
      have hmem : pyStrip a ∈ ((a :: t).map pyStrip).toFinset := by simp
      rw [heq] at hmem
      simp at hmem
  refine ⟨?_, hs1, ?_⟩
  · have h := create_new_set_complete s key countLine ls hkey hk hcount hlen hms
    rw [hcnt, hcard] at h
    exact h
  · have hex : ¬(keyExists (saddStore s key (ls.map pyStrip)) key = false) := by
      simp [keyExists, hs1, hnonempty]
    have hcard0 : ¬(((saddStore s key (ls.map pyStrip)) key).card = 0) := by
      rw [hs1]
      exact fun h0 => hnonempty (Finset.card_eq_zero.mp h0)
    simp only [retrieve_set_members, hkey, if_neg hk, if_neg hex, if_neg hcard0, hs1,
      hcard, scard]
    rw [if_neg (fun h0 => hnonempty (Finset.card_eq_zero.mp h0))]

/-- C1 witness: creating fresh key `colors` with members `red`,`green` and
then querying it returns exactly that member set and cardinality 2. -/
theorem c1_witness :
    ((create_new_set flushStore ["colors", "2", "red", "green"]).bind
        (fun r => retrieve_set_members r.1 ["colors"])).map (fun r => r.2.2.1) =
      some [Report.membersOf "colors" ({"red", "green"} : Finset String),
            Report.cardinalityIs "colors" 2] := by
  have h := c1_create_then_query flushStore "colors" "2" ["red", "green"]
    rfl (by decide) rfl rfl (by decide) (by decide)
  rw [h.1]
  rw [Option.some_bind]
  rw [h.2.2]
  decide

/-- C1 counterexample: the claim fails without freshness of the key — with
`k ↦ {x}` already in the store, creating `k` with entered member set `{a}`
makes the subsequent query return `{x, a}` (cardinality 2), not `{a}`
(cardinality 1). -/
theorem c1_counterexample :
    ((create_new_set (fun k => if k = "k" then ({"x"} : Finset String) else ∅)
          ["k", "1", "a"]).bind
        (fun r => retrieve_set_members r.1 ["k"])).map (fun r => r.2.2.1) =
      some [Report.membersOf "k" ({"x", "a"} : Finset String),
            Report.cardinalityIs "k" 2] ∧
    ({"x", "a"} : Finset String) ≠ {"a"} ∧ (2 : Nat) ≠ 1 := by
  refine ⟨?_, by decide, by decide⟩
  decide

/-- C5 (amended): in the delete-all-data flow, a confirmation that strips and
lowercases to `y` issues exactly one full flush, leaving every key with
cardinality 0; any other confirmation performs no store call and leaves the
store (hence every key's cardinality) unchanged. -/
theorem c5_delete_all_data (s : RStore) (line : String) (rest : List String) :
    (pyLower (pyStrip line) = "y" →
      delete_all_data s (line :: rest) =
        some (flushStore, [StoreCall.flushdb], [Report.flushed], rest) ∧
      ∀ k, scard flushStore k = 0) ∧
    (pyLower (pyStrip line) ≠ "y" →
      delete_all_data s (line :: rest) = some (s, [], [Report.cancelled], rest)) := by
  constructor
  · intro hy
    refine ⟨?_, fun k => rfl⟩
    simp [delete_all_data, hy]
  · intro hy
    simp [delete_all_data, hy]

/-- C5 witness: `" y "` (stripping and lowercasing to `y`) flushes; `"n"`
cancels with no store call. -/
theorem c5_witness :
    (delete_all_data (fun k => if k = "k" then ({"x"} : Finset String) else ∅) [" Y "] =
        some (flushStore, [StoreCall.flushdb], [Report.flushed], []) ∧
      ∀ k, scard flushStore k = 0) ∧
    delete_all_data (fun k => if k = "k" then ({"x"} : Finset String) else ∅) ["n"] =
      some ((fun k => if k = "k" then ({"x"} : Finset String) else ∅),
            [], [Report.cancelled], []) :=
  ⟨(c5_delete_all_data _ " Y " []).1 (by decide),
   (c5_delete_all_data _ "n" []).2 (by decide)⟩

/-- C5 counterexample: the claim as stated says any input other than `"y"`
performs no store call, but entering `"Y"` (which is not the string `"y"`)
issues the flush, destroying the pre-existing key `k` of cardinality 1. -/
theorem c5_counterexample :
    ("Y" : String) ≠ "y" ∧
    (delete_all_data (fun k => if k = "k" then ({"x"} : Finset String) else ∅)
        ["Y"]).map (fun r => (r.2.1, scard r.1 "k")) =
      some ([StoreCall.flushdb], 0) ∧
    scard (fun k => if k = "k" then ({"x"} : Finset String) else ∅) "k" = 1 := by
  refine ⟨by decide, by decide, by decide⟩

/-- C6: in the update sub-menu, adding an already-present member reports
"already existed" and leaves the cardinality unchanged; removing an absent
member reports "not found" and leaves the cardinality unchanged; removing a
present member decrements the cardinality by exactly 1. -/
theorem c6_update_member_ops (s : RStore) (key c1 c2 line : String)
    (rest : List String)
    (h1 : str_to_int (pyStrip c1) = some 1) (h2 : str_to_int (pyStrip c2) = some 2)
    (hm : pyStrip line ≠ "") :
    (pyStrip line ∈ s key →
      update_step s key (c1 :: line :: rest) =
        some (saddStore s key [pyStrip line],
              [StoreCall.sadd key [pyStrip line], StoreCall.scard key],
              [Report.alreadyExisted key (pyStrip line),
               Report.cardinalityIs key (scard s key)], rest, false)) ∧
    (pyStrip line ∉ s key →
      update_step s key (c2 :: line :: rest) =
        some (sremStore s key (pyStrip line),
              [StoreCall.srem key (pyStrip line), StoreCall.scard key],
              [Report.notFoundMember key (pyStrip line),
               Report.cardinalityIs key (scard s key)], rest, false)) ∧
    (pyStrip line ∈ s key →
      update_step s key (c2 :: line :: rest) =
        some (sremStore s key (pyStrip line),
              [StoreCall.srem key (pyStrip line), StoreCall.scard key],
              [Report.removedOk key (pyStrip line),
               Report.cardinalityIs key (scard s key - 1)], rest, false) ∧
      scard (sremStore s key (pyStrip line)) key + 1 = scard s key) := by
  refine ⟨?_, ?_, ?_⟩
  · intro hmem
    have h := update_step_add s key c1 line rest h1 hm
    have hcnt : saddCount s key [pyStrip line] = 0 := by
      simp [saddCount, hmem]
    have hstore : saddStore s key [pyStrip line] key = s key := by
      simp [saddStore, hmem]
    rw [hcnt] at h
    simpa [scard, hstore] using h
  · intro hmem
    have h := update_step_remove s key c2 line rest h2 hm
    have hcnt : sremCount s key (pyStrip line) = 0 := by
      simp [sremCount, hmem]
    have hstore : sremStore s key (pyStrip line) key = s key := by
      simp [sremStore, Finset.erase_eq_of_not_mem hmem]
    rw [hcnt] at h
    simpa [scard, hstore] using h
  · intro hmem
    have h := update_step_remove s key c2 line rest h2 hm
    have hcnt : sremCount s key (pyStrip line) = 1 := by
      simp [sremCount, hmem]
    have hdec : scard (sremStore s key (pyStrip line)) key + 1 = scard s key := by
      show ((sremStore s key (pyStrip line)) key).card + 1 = (s key).card
      have hstore : sremStore s key (pyStrip line) key = (s key).erase (pyStrip line) := by
        simp [sremStore]
      rw [hstore]
      exact Finset.card_erase_add_one hmem
    refine ⟨?_, hdec⟩
    rw [hcnt] at h
    have hcard : scard (sremStore s key (pyStrip line)) key = scard s key - 1 := by
      omega
    simpa [hcard] using h

/-- C6 witness: on store `k ↦ {a, b}` — adding `a` reports already-existed
with cardinality still 2; removing `z` reports not-found with cardinality 2;
removing `a` reports removed with cardinality 1 (a decrement of exactly 1). -/
theorem c6_witness :
    (update_step (fun k => if k = "k" then ({"a", "b"} : Finset String) else ∅) "k"
        ["1", "a"]).map (fun r => (r.2.1, r.2.2.1)) =
      some ([StoreCall.sadd "k" ["a"], StoreCall.scard "k"],
            [Report.alreadyExisted "k" "a", Report.cardinalityIs "k" 2]) ∧
    (update_step (fun k => if k = "k" then ({"a", "b"} : Finset String) else ∅) "k"
        ["2", "z"]).map (fun r => (r.2.1, r.2.2.1)) =
      some ([StoreCall.srem "k" "z", StoreCall.scard "k"],
            [Report.notFoundMember "k" "z", Report.cardinalityIs "k" 2]) ∧
    (update_step (fun k => if k = "k" then ({"a", "b"} : Finset String) else ∅) "k"
        ["2", "a"]).map (fun r => (r.2.1, r.2.2.1)) =
      some ([StoreCall.srem "k" "a", StoreCall.scard "k"],
            [Report.removedOk "k" "a", Report.cardinalityIs "k" 1]) := by
  refine ⟨?_, ?_, ?_⟩
  · rw [(c6_update_member_ops _ "k" "1" "2" "a" [] rfl rfl (by decide)).1 (by decide)]
    decide
  · rw [(c6_update_member_ops _ "k" "1" "2" "z" [] rfl rfl (by decide)).2.1 (by decide)]
    decide
  · rw [((c6_update_member_ops _ "k" "1" "2" "a" [] rfl rfl (by decide)).2.2 (by decide)).1]
    decide

/-- C7: the remove-all-members sub-operation takes a snapshot of the member
set and issues one individual `SREM` per member (exactly `SCARD` many — no
bulk delete appears in the trace); on a non-empty set the key ends with
cardinality 0 while every other key is untouched. -/
theorem c7_remove_all_members (s : RStore) (key c : String) (rest : List String)
    (hc : str_to_int (pyStrip c) = some 3) (hne : s key ≠ ∅) :
    update_step s key (c :: rest) =
      some (removeAll s key (setSnapshot (s key)),
            StoreCall.smembers key ::
              ((setSnapshot (s key)).map (fun m => StoreCall.srem key m) ++
               [StoreCall.scard key]),
            Report.removingAll ::
              ((setSnapshot (s key)).map (fun m => Report.removing m) ++
               [Report.cardinalityIs key 0]),
            rest, false) ∧
    ((setSnapshot (s key)).map (fun m => StoreCall.srem key m)).length = scard s key ∧
    removeAll s key (setSnapshot (s key)) key = ∅ ∧
    ∀ k, k ≠ key → removeAll s key (setSnapshot (s key)) k = s k := by
  have hzero : removeAll s key (setSnapshot (s key)) key = ∅ :=
    removeAll_snapshot_empty s key
  refine ⟨?_, ?_, hzero, fun k hk => removeAll_apply_ne key k hk _ s⟩
  · have h := update_step_remove_all s key c rest hc hne
    have hc0 : scard (removeAll s key (setSnapshot (s key))) key = 0 := by
      simp [scard, hzero]
    rwa [hc0] at h
  · rw [List.length_map]
    exact Finset.length_sort _

/-- C7 witness: on a store holding `{a, b}` everywhere, remove-all on key `k`
issues `SMEMBERS` then one `SREM` per member then `SCARD`, ends with
cardinality 0 at `k`, and leaves the unrelated key `other` unchanged. -/
theorem c7_witness :
    (update_step (fun _ => ({"a", "b"} : Finset String)) "k" ["3"]).map
        (fun r => (r.2.1, scard r.1 "k", r.1 "other")) =
      some ([StoreCall.smembers "k", StoreCall.srem "k" "a", StoreCall.srem "k" "b",
             StoreCall.scard "k"],
            0, ({"a", "b"} : Finset String)) := by
  have hsnap : setSnapshot ({"a", "b"} : Finset String) = ["a", "b"] := by
    have hne : ("a" : String) ∉ ({"b"} : Finset String) := by decide
    have hle : ∀ b ∈ ({"b"} : Finset String), ("a" : String) ≤ b := by
      intro b hb
      rw [Finset.mem_singleton] at hb
      subst hb
      rw [String.le_iff_toList_le]
      decide
    unfold setSnapshot
    rw [show ({"a", "b"} : Finset String) = insert "a" {"b"} from rfl,
      Finset.sort_insert _ hle hne, Finset.sort_singleton]
  have h := (c7_remove_all_members (fun _ => ({"a", "b"} : Finset String)) "k" "3" []
    rfl (by decide)).1
  rw [hsnap] at h
  rw [h]
  have hall : removeAll (fun _ => ({"a", "b"} : Finset String)) "k" ["a", "b"] "k" = ∅ := by
    rw [removeAll_apply_key]
    decide
  have hother : removeAll (fun _ => ({"a", "b"} : Finset String)) "k" ["a", "b"] "other" =
      ({"a", "b"} : Finset String) :=
    removeAll_apply_ne "k" "other" (by decide) _ _
  simp [scard, hall, hother]

/-- C8: whenever `get_int` returns a value, that value satisfies every
supplied bound; a rejected line (non-numeric or out of range) is consumed
without returning, so neither the reader nor the main menu loop terminates on
it — behaviour on the remaining input is unchanged. -/
theorem c8_get_int_contract :
    (∀ (min_value max_value : Option Int) (inputs : List String) (v : Int)
        (rest : List String),
      get_int min_value max_value inputs = some (v, rest) →
      (∀ m, min_value = some m → m ≤ v) ∧ (∀ M, max_value = some M → v ≤ M)) ∧
    (∀ (min_value max_value : Option Int) (line : String) (rest : List String),
      rejects min_value max_value line = true →
      get_int min_value max_value (line :: rest) = get_int min_value max_value rest) ∧
    (∀ (fuel : Nat) (s : RStore) (line : String) (rest : List String),
      rejects (some 1) (some 6) line = true →
      main_loop fuel s (line :: rest) = main_loop fuel s rest) := by
  refine ⟨?_, get_int_skip, ?_⟩
  · intro mm MM inputs v rest h
    obtain ⟨hmin, hmax⟩ := get_int_bounds mm MM inputs v rest h
    constructor
    · intro m hm
      subst hm
      unfold belowMin at hmin
      simpa using (of_decide_eq_false hmin)
    · intro M hM
      subst hM
      unfold aboveMax at hmax
      simpa using (of_decide_eq_false hmax)
  · intro fuel s line rest h
    cases fuel with
    | zero => rfl
    | succ k => simp only [main_loop, get_int_skip (some 1) (some 6) line rest h]

/-- C8 witness: on input lines `"abc"`, `"9"`, `"3"` with bounds 1–6 the
reader skips the non-numeric and out-of-range lines and returns 3, which
satisfies both bounds; the menu loop on `"abc"` then `"6"` behaves exactly as
on `"6"` alone. -/
theorem c8_witness :
    ((1 : Int) ≤ 3 ∧ (3 : Int) ≤ 6) ∧
    get_int (some 1) (some 6) ["abc", "9", "3"] = some (3, []) ∧
    main_loop 1 flushStore ["abc", "6"] = main_loop 1 flushStore ["6"] := by
  have hrun : get_int (some 1) (some 6) ["abc", "9", "3"] = some (3, []) := by decide
  have hb := c8_get_int_contract.1 (some 1) (some 6) ["abc", "9", "3"] 3 [] hrun
  exact ⟨⟨hb.1 1 rfl, hb.2 6 rfl⟩, hrun,
    c8_get_int_contract.2.2 1 flushStore "abc" ["6"] (by decide)⟩

/-- C9: in the update sub-menu's add-member and remove-member choices, an
empty member input produces only a message — no store call, store unchanged —
and the sub-loop continues with the remaining input rather than aborting the
update operation. -/
theorem c9_empty_member_continues (s : RStore) (key c line : String)
    (rest : List String) (fuel : Nat)
    (hc : str_to_int (pyStrip c) = some 1 ∨ str_to_int (pyStrip c) = some 2)
    (hm : pyStrip line = "") :
    update_step s key (c :: line :: rest) =
      some (s, [], [Report.memberEmpty], rest, false) ∧
    update_loop (fuel + 1) s key (c :: line :: rest) =
      (update_loop fuel s key rest).map
        (fun r => (r.1, r.2.1, Report.memberEmpty :: r.2.2.1, r.2.2.2)) := by
  have h := update_step_empty_member s key c line rest hc hm
  refine ⟨h, ?_⟩
  rw [update_loop_continue fuel s s key _ [] [Report.memberEmpty] rest h]
  cases update_loop fuel s key rest with
  | none => rfl
  | some q => rfl

/-- C9 witness: on store `k ↦ {a}`, choice 1 with an empty member line
reports only the message and the sub-loop goes on to execute the following
exit command, leaving the store unchanged and the call trace empty. -/
theorem c9_witness :
    update_step (fun k => if k = "k" then ({"a"} : Finset String) else ∅) "k"
        ["1", "  ", "4"] =
      some ((fun k => if k = "k" then ({"a"} : Finset String) else ∅),
            [], [Report.memberEmpty], ["4"], false) ∧
    (update_loop 2 (fun k => if k = "k" then ({"a"} : Finset String) else ∅) "k"
        ["1", "  ", "4"]).map (fun r => (r.2.1, r.2.2.1)) =
      some ([], [Report.memberEmpty, Report.exitUpdate]) := by
  have h := c9_empty_member_continues
    (fun k => if k = "k" then ({"a"} : Finset String) else ∅) "k" "1" "  " ["4"] 1
    (Or.inl rfl) (by decide)
  refine ⟨h.1, ?_⟩
  rw [h.2]
  decide

/-- C2 (amended): starting from a store with no empty member string, every
operation issues only store calls with non-empty keys and non-empty member
strings and preserves that wellformedness; the query and update operations
additionally confirm via an `EXISTS` check that the key is present before
issuing any call that acts on it.  (The delete operation does not: it issues
`DEL` directly and reports based on its return value.) -/
theorem c2_operation_invariants (s : RStore) (inputs : List String) (r : OpResult)
    (hwf : WF s) :
    (create_new_set s inputs = some r → WF r.1 ∧ r.2.1.all callOkB = true) ∧
    (retrieve_set_members s inputs = some r →
      WF r.1 ∧ r.2.1.all callOkB = true ∧ guarded r.2.1 = true) ∧
    (update_set_members s inputs = some r →
      WF r.1 ∧ r.2.1.all callOkB = true ∧ guarded r.2.1 = true) ∧
    (delete_set s inputs = some r → WF r.1 ∧ r.2.1.all callOkB = true) ∧
    (delete_all_data s inputs = some r → WF r.1 ∧ r.2.1.all callOkB = true) :=
  ⟨create_new_set_inv s inputs r hwf,
   retrieve_set_members_inv s inputs r hwf,
   update_set_members_inv s inputs r hwf,
   delete_set_inv s inputs r hwf,
   delete_all_data_inv s inputs r hwf⟩

/-- C2 witness: querying key `k` on the store `_ ↦ {x}` gives a wellformed
store and a wellformed, fully `EXISTS`-guarded call trace. -/
theorem c2_witness :
    WF ((fun _ => ({"x"} : Finset String)) : RStore) ∧
    [StoreCall.existsKey "k", StoreCall.smembers "k", StoreCall.scard "k"].all
        callOkB = true ∧
    guarded [StoreCall.existsKey "k", StoreCall.smembers "k", StoreCall.scard "k"] =
      true := by
  have hwf : WF (fun _ => ({"x"} : Finset String)) := by
    intro k
    show "" ∉ ({"x"} : Finset String)
    decide
  have h := (c2_operation_invariants (fun _ => ({"x"} : Finset String)) ["k"]
      ((fun _ => ({"x"} : Finset String)),
       [StoreCall.existsKey "k", StoreCall.smembers "k", StoreCall.scard "k"],
       [Report.membersOf "k" ({"x"} : Finset String), Report.cardinalityIs "k" 1],
       []) hwf).2.1 rfl
  exact ⟨h.1, h.2.1, h.2.2⟩

/-- C2 counterexample: the delete operation acts on its key without any
preceding `EXISTS` check — its whole call trace is the single unguarded `DEL`,
so the claim that read, update and delete all confirm existence first is
false. -/
theorem c2_counterexample :
    (delete_set (fun _ => ({"x"} : Finset String)) ["k"]).map (fun r => r.2.1) =
      some [StoreCall.delKey "k"] ∧
    guarded [StoreCall.delKey "k"] = false := by
  refine ⟨?_, by decide⟩
  decide

/-- C10: every key, member and confirmation line is stripped of surrounding
whitespace before validation and before reaching the store (each operation is
insensitive to surrounding whitespace on an input line), and a whitespace-only
line behaves exactly like an empty one: key reads abort, member reads abort
the create flow, the flush confirmation cancels, and the integer reader
rejects it. -/
theorem c10_inputs_stripped (s : RStore) (line : String) (rest : List String)
    (min_value max_value : Option Int) (n : Nat) :
    (create_new_set s (line :: rest) = create_new_set s (pyStrip line :: rest)) ∧
    (retrieve_set_members s (line :: rest) =
      retrieve_set_members s (pyStrip line :: rest)) ∧
    (update_set_members s (line :: rest) = update_set_members s (pyStrip line :: rest)) ∧
    (delete_set s (line :: rest) = delete_set s (pyStrip line :: rest)) ∧
    (delete_all_data s (line :: rest) = delete_all_data s (pyStrip line :: rest)) ∧
    (get_int min_value max_value (line :: rest) =
      get_int min_value max_value (pyStrip line :: rest)) ∧
    (readMembers (n + 1) (line :: rest) = readMembers (n + 1) (pyStrip line :: rest)) ∧
    ((∀ ch ∈ line.data, isSpaceChar ch = true) →
      create_new_set s (line :: rest) = some (s, [], [Report.keyEmpty], rest) ∧
      retrieve_set_members s (line :: rest) = some (s, [], [Report.keyEmpty], rest) ∧
      update_set_members s (line :: rest) = some (s, [], [Report.keyEmpty], rest) ∧
      delete_set s (line :: rest) = some (s, [], [Report.keyEmpty], rest) ∧
      delete_all_data s (line :: rest) = some (s, [], [Report.cancelled], rest) ∧
      readMembers (n + 1) (line :: rest) = some (none, rest) ∧
      rejects min_value max_value line = true) := by
  refine ⟨?_, ?_, ?_, ?_, ?_, ?_, ?_, ?_⟩
  · simp only [create_new_set, pyStrip_idem]
  · simp only [retrieve_set_members, pyStrip_idem]
  · simp only [update_set_members, pyStrip_idem]
  · simp only [delete_set, pyStrip_idem]
  · simp only [delete_all_data, pyStrip_idem]
  · simp only [get_int, pyStrip_idem]
  · simp only [readMembers, pyStrip_idem]
  · intro hws
    have hstrip : pyStrip line = "" := pyStrip_of_all_space line hws
    have hlower : pyLower (pyStrip line) = "" := by rw [hstrip]; rfl
    refine ⟨?_, ?_, ?_, ?_, ?_, ?_, ?_⟩
    · simp [create_new_set, hstrip]
    · simp [retrieve_set_members, hstrip]
    · simp [update_set_members, hstrip]
    · simp [delete_set, hstrip]
    · have hy : pyLower (pyStrip line) ≠ "y" := by
        rw [hlower]
        decide
      simp [delete_all_data, hy]
    · simp [readMembers, hstrip]
    · unfold rejects
      rw [hstrip]
      rfl

/-- C10 witness: the line `" \t "` (whitespace only) is treated as empty by
every reader: the create flow aborts with the empty-key message, the flush
confirmation cancels, the member reader aborts, and the integer reader
rejects it; moreover prefixing a key with spaces does not change the
behaviour of a query. -/
theorem c10_witness :
    create_new_set flushStore [" \t ", "1", "a"] =
      some (flushStore, [], [Report.keyEmpty], ["1", "a"]) ∧
    delete_all_data flushStore [" \t "] =
      some (flushStore, [], [Report.cancelled], []) ∧
    readMembers 1 [" \t "] = some (none, []) ∧
    rejects (some 1) (some 6) " \t " = true ∧
    retrieve_set_members flushStore ["  k  "] =
      retrieve_set_members flushStore [pyStrip "  k  "] := by
  have h := c10_inputs_stripped flushStore " \t " ["1", "a"] (some 1) (some 6) 0
  have hws : ∀ ch ∈ (" \t " : String).data, isSpaceChar ch = true := by decide
  have h2 := c10_inputs_stripped flushStore " \t " [] (some 1) (some 6) 0
  have hws2 := (h2.2.2.2.2.2.2.2 hws)
  refine ⟨(h.2.2.2.2.2.2.2 hws).1, hws2.2.2.2.2.1, hws2.2.2.2.2.2.1, hws2.2.2.2.2.2.2,
    (c10_inputs_stripped flushStore "  k  " [] (some 1) (some 6) 0).2.1⟩
